import Mathlib

/-!
Verification of the client-side orchestration layer of the musicpolice
dashboard (`src/static/dashboard.js`): upload-queue validation, the task
polling state machine, the searchable/paginated result list, and the
singleton audio playback controller.

JS strings are modelled as `List Char` (one entry per code unit; all inputs
of interest are ASCII).  Machine numbers that the code only ever uses as
small non-negative integers are `Nat`; the seek position arithmetic uses `ℚ`
(exact for the concrete values involved).  DOM side effects that the claims
talk about (queue items, notifications, scheduled timeouts, emitted events)
are carried explicitly in the state records.
-/

namespace MusicPolice

/-! ### JS string primitives -/

/-- `s.toLowerCase()` on one ASCII character: codes 65–90 (`A`–`Z`) map to
codes 97–122 (`a`–`z`), everything else is unchanged. -/
def asciiLower (c : Char) : Char :=
  if 65 ≤ c.toNat ∧ c.toNat ≤ 90 then Char.ofNat (c.toNat + 32) else c

/-- `s.toLowerCase()` for ASCII strings. -/
def jsToLower (s : List Char) : List Char := s.map asciiLower

/-- `pat` is a prefix of `s` (helper for `includes`/`endsWith`). -/
def isPrefixB : List Char → List Char → Bool
  | [], _ => true
  | _ :: _, [] => false
  | c :: cs, d :: ds => c == d && isPrefixB cs ds

/-- `s.includes(pat)`: `pat` occurs as a contiguous substring of `s`. -/
def jsIncludes (s pat : List Char) : Bool :=
  isPrefixB pat s ||
    match s with
    | [] => false
    | _ :: s1 => jsIncludes s1 pat

/-- `s.endsWith(suffix)`. -/
def jsEndsWith (s suffix : List Char) : Bool :=
  isPrefixB suffix.reverse s.reverse

/-- Whitespace characters removed by `String.prototype.trim()` (the ASCII
ones; the code only ever trims user-typed search terms). -/
def isJsSpace (c : Char) : Bool :=
  c == ' ' || c == '\t' || c == '\n' || c == '\r'

/-- `s.trim()`. -/
def jsTrim (s : List Char) : List Char :=
  ((s.dropWhile isJsSpace).reverse.dropWhile isJsSpace).reverse

/-- `n.toString()` for a non-negative JS number: decimal digits. -/
def natToChars (n : Nat) : List Char :=
  if n < 10 then [Char.ofNat (48 + n)]
  else natToChars (n / 10) ++ [Char.ofNat (48 + n % 10)]
decreasing_by
  exact Nat.div_lt_self (by omega) (by omega)

/-! ### Upload queue (`addFilesToQueue`, `isValidAudioFile`) -/

/-- The attributes of a browser `File` object the queue code reads. -/
structure JsFile where
  name : List Char
  size : Nat
deriving Repr, DecidableEq

/-- dashboard.js line 1144: `const validTypes = ['.mp3', '.wav', '.flac',
'.m4a', '.ogg']`. -/
def validTypes : List (List Char) :=
  [['.', 'm', 'p', '3'], ['.', 'w', 'a', 'v'], ['.', 'f', 'l', 'a', 'c'],
   ['.', 'm', '4', 'a'], ['.', 'o', 'g', 'g']]

/-- dashboard.js `isValidAudioFile`: some allowed extension is a suffix of
`file.name.toLowerCase()`. -/
def isValidAudioFile (file : JsFile) : Bool :=
  validTypes.any fun t => jsEndsWith (jsToLower file.name) t

/-- State touched by `addFilesToQueue`: the module-level `uploadedFiles`
array, the `#queue-list` children (one rendered item per accepted file),
the emitted notifications, and the visibility of `#upload-queue`. -/
structure QueueState where
  uploadedFiles : List JsFile
  queueItems : List JsFile
  toasts : List (List Char)
  queueVisible : Bool
deriving Repr, DecidableEq

/-- The message of `showNotification` on a rejected file:
`Invalid file type: ${file.name}`. -/
def invalidFileMsg (file : JsFile) : List Char :=
  ('I' :: 'n' :: 'v' :: 'a' :: 'l' :: 'i' :: 'd' :: ' ' :: 'f' :: 'i' ::
   'l' :: 'e' :: ' ' :: 't' :: 'y' :: 'p' :: 'e' :: ':' :: ' ' :: []) ++ file.name

/-- The body of the `files.forEach` loop in `addFilesToQueue`: a valid file
is pushed onto `uploadedFiles` and gets a queue item appended; an invalid
one only produces a notification. -/
def addOneFile (st : QueueState) (file : JsFile) : QueueState :=
  if isValidAudioFile file then
    { st with uploadedFiles := st.uploadedFiles ++ [file],
              queueItems := st.queueItems ++ [file] }
  else
    { st with toasts := st.toasts ++ [invalidFileMsg file] }

/-- dashboard.js `addFilesToQueue`: process each file in order, then show
the queue container iff it has children. -/
def addFilesToQueue (files : List JsFile) (st : QueueState) : QueueState :=
  let st1 := files.foldl addOneFile st
  if 0 < st1.queueItems.length then { st1 with queueVisible := true } else st1

/-! ### Result list: search and pagination -/

/-- The fields of a backend analysis record that search reads: `id` (a
non-negative integer) and `filename` (possibly absent — the code guards
`analysis.filename ? ... : ''`). -/
structure Analysis where
  id : Nat
  filename : Option (List Char)
deriving Repr, DecidableEq

/-- dashboard.js line 488: `let itemsPerPage = 10` (never reassigned). -/
def itemsPerPage : Nat := 10

/-- The module-level list-view variables of dashboard.js lines 485–489. -/
structure ListState where
  allAnalyses : List Analysis
  filteredAnalyses : List Analysis
  currentPage : Nat
  isShowingAll : Bool
deriving Repr, DecidableEq

/-- Their initial values (`[]`, `[]`, `1`, `false`). -/
def initialListState : ListState :=
  { allAnalyses := [], filteredAnalyses := [], currentPage := 1,
    isShowingAll := false }

/-- The filter predicate of `performSearch`:
`filename.toLowerCase().includes(searchLower) ||
 analysis.id.toString().includes(searchLower)` where
`searchLower = searchTerm.toLowerCase()` and a missing filename is `''`. -/
def searchMatch (searchTerm : List Char) (a : Analysis) : Bool :=
  let filename := jsToLower (a.filename.getD [])
  let searchLower := jsToLower searchTerm
  jsIncludes filename searchLower || jsIncludes (natToChars a.id) searchLower

/-- dashboard.js `performSearch`: whitespace-only term restores the full
set, otherwise filter; `currentPage` always becomes 1. -/
def performSearch (searchTerm : List Char) (st : ListState) : ListState :=
  let filtered :=
    if jsTrim searchTerm = [] then st.allAnalyses
    else st.allAnalyses.filter (searchMatch searchTerm)
  { st with filteredAnalyses := filtered, currentPage := 1 }

/-- dashboard.js `updateAnalysisTable` (the hydrate path): replaces both
sets and resets `currentPage` to 1. -/
def updateAnalysisTable (analyses : List Analysis) (st : ListState) : ListState :=
  { st with allAnalyses := analyses, filteredAnalyses := analyses,
            currentPage := 1 }

/-- `Math.ceil(filteredAnalyses.length / itemsPerPage)` as used by
`changePage` (ceiling division on naturals). -/
def totalPages (st : ListState) : Nat :=
  (st.filteredAnalyses.length + itemsPerPage - 1) / itemsPerPage

/-- dashboard.js `changePage`: move to `currentPage + direction` only when
that lands in `[1, totalPages]`, re-rendering the window (the returned
`Bool` records whether `displayAnalysesWithPagination` ran). -/
def changePage (direction : Int) (st : ListState) : ListState × Bool :=
  let newPage : Int := (st.currentPage : Int) + direction
  if 1 ≤ newPage ∧ newPage ≤ (totalPages st : Int) then
    ({ st with currentPage := newPage.toNat }, true)
  else
    (st, false)

/-- dashboard.js `showAllAnalyses`: switches to paginated mode, page 1. -/
def showAllAnalyses (st : ListState) : ListState :=
  { st with isShowingAll := true, currentPage := 1 }

/-- dashboard.js `showRecentAnalyses`: switches to recent mode, page 1. -/
def showRecentAnalyses (st : ListState) : ListState :=
  { st with isShowingAll := false, currentPage := 1 }

/-- The operations that write the module-level list-view variables
(`allAnalyses`, `filteredAnalyses`, `currentPage`, `isShowingAll`); no
other dashboard.js function assigns them. -/
inductive ListOp
  | hydrate (records : List Analysis)
  | search (term : List Char)
  | page (direction : Int)
  | showAll
  | showRecent
deriving Repr, DecidableEq

/-- Effect of one list-view operation. -/
def applyListOp (st : ListState) : ListOp → ListState
  | .hydrate records => updateAnalysisTable records st
  | .search term => performSearch term st
  | .page direction => (changePage direction st).1
  | .showAll => showAllAnalyses st
  | .showRecent => showRecentAnalyses st

/-- The list-view states reachable from the initial module state. -/
inductive ReachableList : ListState → Prop
  | init : ReachableList initialListState
  | step {st : ListState} (op : ListOp) :
      ReachableList st → ReachableList (applyListOp st op)

/-! ### Task tracker (`pollTaskStatus`) -/

/-- The visual status a queue item can show (`item.innerHTML` variants set
by `startAnalysis` and `pollTaskStatus`). -/
inductive ItemVisual
  | processingSpinner
  | completedCheck
  | failedMark
  | timeoutClock
  | errorMark
deriving Repr, DecidableEq

/-- What one round of `poll()` can observe: the `fetch`/`response.json()`
promise rejecting, a response with `response.ok` false, or a parsed body
with a `status` string. -/
inductive PollResponse
  | fetchError
  | httpNotOk
  | ok (status : String)
deriving Repr, DecidableEq

/-- dashboard.js line 1250: `const maxAttempts = 30`. -/
def maxAttempts : Nat := 30

/-- The state of one `pollTaskStatus` invocation: its `attempts` counter,
the owning queue item's visual, the notifications emitted so far, the
pending `setTimeout(poll, …)` delay if a further poll is scheduled, and the
delays of the scheduled `clearUploadQueue` timeouts. -/
structure TrackerState where
  fileName : String
  attempts : Nat
  visual : ItemVisual
  toasts : List String
  pendingPoll : Option Nat
  autoClears : List Nat
deriving Repr, DecidableEq

/-- Tracker state right after `pollTaskStatus(taskId, item, fileName)`
starts: the item shows the processing spinner (set by `startAnalysis`),
no attempts used, and `poll()` is invoked immediately (delay 0). -/
def initTracker (fileName : String) : TrackerState :=
  { fileName := fileName, attempts := 0, visual := .processingSpinner,
    toasts := [], pendingPoll := some 0, autoClears := [] }

/-- One execution of the `poll` closure body against the observed response,
mirroring the branch structure of dashboard.js lines 1253–1307:
`completed` and `failed` are terminal with one notification each
(`completed` also schedules `clearUploadQueue` after 2000 ms);
`running` with `attempts < maxAttempts` increments `attempts` and schedules
the next poll after 1000 ms; any other parsed status — including
`running` once `attempts` reaches 30 — falls to the timeout branch; a
thrown transport/parse error sets the error visual; a non-ok HTTP response
runs no branch at all. -/
def pollStep (st : TrackerState) (r : PollResponse) : TrackerState :=
  match r with
  | .fetchError =>
      { st with visual := .errorMark, pendingPoll := none }
  | .httpNotOk =>
      { st with pendingPoll := none }
  | .ok status =>
      if status = "completed" then
        { st with visual := .completedCheck,
                  toasts := st.toasts ++ ["Analysis completed for " ++ st.fileName],
                  autoClears := st.autoClears ++ [2000],
                  pendingPoll := none }
      else if status = "failed" then
        { st with visual := .failedMark,
                  toasts := st.toasts ++ ["Analysis failed for " ++ st.fileName],
                  pendingPoll := none }
      else if status = "running" ∧ st.attempts < maxAttempts then
        { st with attempts := st.attempts + 1, pendingPoll := some 1000 }
      else
        { st with visual := .timeoutClock, pendingPoll := none }

/-- Feed successive poll responses to the tracker; once no further poll is
scheduled the remaining responses are never observed. -/
def runPolls (st : TrackerState) : List PollResponse → TrackerState
  | [] => st
  | r :: rs =>
      if st.pendingPoll.isSome then runPolls (pollStep st r) rs else st

/-! ### Audio playback (`playAudio`, `updatePlayButtons`, `seekAudio`) -/

/-- The attributes of an `Audio` element the claims touch: which analysis
its URL addresses, whether it is paused, its `duration` (`none` models the
`NaN` before metadata arrives; `0` is also falsy where the code tests
truthiness) and its `currentTime`. -/
structure AudioElem where
  analysisId : Nat
  paused : Bool
  duration : Option ℚ
  currentTime : ℚ
deriving Repr, DecidableEq

/-- One rendered `.play-button`, keyed by the analysis id in its `onclick`,
with the `playing` CSS class as its "now playing" indicator. -/
structure PlayButton where
  analysisId : Nat
  playing : Bool
deriving Repr, DecidableEq

/-- Module-level audio state (`currentAudio`, `currentAnalysisId`) plus the
rendered play buttons. -/
structure AudioState where
  currentAudio : Option AudioElem
  currentAnalysisId : Option Nat
  buttons : List PlayButton
deriving Repr, DecidableEq

/-- Observable actions `playAudio` performs, in program order. -/
inductive AudioEvent
  | mediaPaused (analysisId : Nat)
  | mediaReleased (analysisId : Nat)
  | buttonsUpdated (analysisId : Nat)
  | mediaCreated (analysisId : Nat)
  | playerShown (analysisId : Nat)
  | playCalled (analysisId : Nat)
deriving Repr, DecidableEq

/-- dashboard.js `updatePlayButtons`: the button for `analysisId` takes the
requested state; when that state is `'playing'`, every other button is
reset to the plain play indicator. -/
def updatePlayButtons (analysisId : Nat) (stateStr : String)
    (buttons : List PlayButton) : List PlayButton :=
  buttons.map fun b =>
    if b.analysisId = analysisId then
      if stateStr = "playing" then { b with playing := true }
      else { b with playing := false }
    else if stateStr = "playing" then { b with playing := false }
    else b

/-- dashboard.js `playAudio`, in source order: pause and drop any current
audio, update the play buttons for the new id, create the new `Audio`
element and remember its id, show the global player, call `play()`.  The
returned list is the trace of those actions. -/
def playAudio (analysisId : Nat) (st : AudioState) : AudioState × List AudioEvent :=
  let torn : AudioState × List AudioEvent :=
    match st.currentAudio with
    | some a =>
        ({ st with currentAudio := none },
         [.mediaPaused a.analysisId, .mediaReleased a.analysisId])
    | none => (st, [])
  let st1 := { torn.1 with buttons := updatePlayButtons analysisId "playing" torn.1.buttons }
  let newElem : AudioElem :=
    { analysisId := analysisId, paused := false, duration := none, currentTime := 0 }
  let st2 := { st1 with currentAudio := some newElem,
                        currentAnalysisId := some analysisId }
  (st2, torn.2 ++ [.buttonsUpdated analysisId, .mediaCreated analysisId,
                   .playerShown analysisId, .playCalled analysisId])

/-- dashboard.js `seekAudio`: only acts when `currentAudio` exists and
`currentAudio.duration` is truthy (known and non-zero); then
`currentTime = (percentage / 100) * duration`, with no clamping. -/
def seekAudio (percentage : ℚ) (st : AudioState) : AudioState :=
  match st.currentAudio with
  | none => st
  | some a =>
      match a.duration with
      | none => st
      | some d =>
          if d = 0 then st
          else
            let a1 : AudioElem := { a with currentTime := percentage / 100 * d }
            { st with currentAudio := some a1 }

/-! ### Helper lemmas -/

theorem toNat_ofNat_valid {n : Nat} (h : n < 55296) : (Char.ofNat n).toNat = n := by
  have hv : n.isValidChar := Or.inl h
  simp [Char.ofNat, hv, Char.ofNatAux, Char.toNat, UInt32.toNat, UInt32.ofNatCore]

theorem mem_natToChars {c : Char} {n : Nat} (h : c ∈ natToChars n) :
    48 ≤ c.toNat ∧ c.toNat ≤ 57 := by
  induction n using natToChars.induct with
  | case1 n hn =>
      rw [natToChars, if_pos hn] at h
      rcases List.mem_singleton.mp h with rfl
      rw [toNat_ofNat_valid (by omega)]
      omega
  | case2 n hn ih =>
      rw [natToChars, if_neg hn] at h
      rcases List.mem_append.mp h with h1 | h2
      · exact ih h1
      · rcases List.mem_singleton.mp h2 with rfl
        have hm : n % 10 < 10 := Nat.mod_lt _ (by omega)
        rw [toNat_ofNat_valid (by omega)]
        omega

theorem mem_of_isPrefixB {pat s : List Char} (h : isPrefixB pat s = true) :
    ∀ c ∈ pat, c ∈ s := by
  induction pat generalizing s with
  | nil => simp
  | cons p ps ih =>
      match s with
      | [] => simp [isPrefixB] at h
      | d :: ds =>
          simp only [isPrefixB, Bool.and_eq_true, beq_iff_eq] at h
          intro c hc
          rcases List.mem_cons.mp hc with rfl | hc2
          · exact h.1 ▸ List.mem_cons_self _ _
          · exact List.mem_cons_of_mem _ (ih h.2 c hc2)

theorem mem_of_jsIncludes {s pat : List Char} (h : jsIncludes s pat = true) :
    ∀ c ∈ pat, c ∈ s := by
  induction s with
  | nil =>
      rw [jsIncludes, Bool.or_false] at h
      exact mem_of_isPrefixB h
  | cons a s1 ih =>
      rw [jsIncludes, Bool.or_eq_true] at h
      rcases h with h1 | h2
      · exact mem_of_isPrefixB h1
      · exact fun c hc => List.mem_cons_of_mem _ (ih h2 c hc)

theorem map_eq_self_of_fix {f : Char → Char} {l : List Char}
    (h : ∀ c ∈ l, f c = c) : l.map f = l := by
  induction l with
  | nil => rfl
  | cons a l ih => simp_all

theorem asciiLower_of_digit {c : Char} (h48 : 48 ≤ c.toNat) (h57 : c.toNat ≤ 57) :
    asciiLower c = c := by
  rw [asciiLower, if_neg]
  omega

theorem eq_of_asciiLower_eq_digit {c d : Char} (h48 : 48 ≤ d.toNat)
    (h57 : d.toNat ≤ 57) (h : asciiLower c = d) : c = d := by
  rw [asciiLower] at h
  by_cases hc : 65 ≤ c.toNat ∧ c.toNat ≤ 90
  · rw [if_pos hc] at h
    have hv : (Char.ofNat (c.toNat + 32)).toNat = c.toNat + 32 :=
      toNat_ofNat_valid (by omega)
    rw [h] at hv
    omega
  · rwa [if_neg hc] at h

theorem jsIncludes_natToChars_toLower (n : Nat) (pat : List Char) :
    jsIncludes (natToChars n) (jsToLower pat) = jsIncludes (natToChars n) pat := by
  by_cases hfix : ∀ c ∈ pat, asciiLower c = c
  · rw [jsToLower, map_eq_self_of_fix hfix]
  · push_neg at hfix
    obtain ⟨c, hc, hne⟩ := hfix
    have lhs : jsIncludes (natToChars n) (jsToLower pat) = false := by
      by_contra hcon
      have h1 : jsIncludes (natToChars n) (jsToLower pat) = true :=
        eq_true_of_ne_false hcon
      have hmem : asciiLower c ∈ natToChars n :=
        mem_of_jsIncludes h1 (asciiLower c) (List.mem_map_of_mem asciiLower hc)
      have hd := mem_natToChars hmem
      exact hne ((eq_of_asciiLower_eq_digit hd.1 hd.2 rfl) ▸ rfl)
    have rhs : jsIncludes (natToChars n) pat = false := by
      by_contra hcon
      have h1 : jsIncludes (natToChars n) pat = true :=
        eq_true_of_ne_false hcon
      have hmem : c ∈ natToChars n := mem_of_jsIncludes h1 c hc
      have hd := mem_natToChars hmem
      exact hne (asciiLower_of_digit hd.1 hd.2)
    rw [lhs, rhs]

theorem foldl_addOneFile (files : List JsFile) (st : QueueState) :
    files.foldl addOneFile st =
      { st with
        uploadedFiles := st.uploadedFiles ++ files.filter (fun f => isValidAudioFile f),
        queueItems := st.queueItems ++ files.filter (fun f => isValidAudioFile f),
        toasts := st.toasts ++
          (files.filter (fun f => ! isValidAudioFile f)).map invalidFileMsg } := by
  induction files generalizing st with
  | nil => simp
  | cons f fs ih =>
      rw [List.foldl_cons, ih]
      cases hv : isValidAudioFile f
      · simp [addOneFile, hv]
      · simp [addOneFile, hv]

/-! ### Claim theorems -/

/-- C7: every file failing the audio-extension allow-list produces exactly one
rejection notification and never enters the queue (neither the stored
`uploadedFiles` list nor the rendered queue items); every valid file is
appended to both, in arrival order. -/
theorem addFilesToQueue_validation (files : List JsFile) (st : QueueState) :
    (addFilesToQueue files st).uploadedFiles
        = st.uploadedFiles ++ files.filter (fun f => isValidAudioFile f) ∧
    (addFilesToQueue files st).queueItems
        = st.queueItems ++ files.filter (fun f => isValidAudioFile f) ∧
    (addFilesToQueue files st).toasts
        = st.toasts ++
            (files.filter (fun f => ! isValidAudioFile f)).map invalidFileMsg := by
  unfold addFilesToQueue
  rw [foldl_addOneFile]
  dsimp only
  split
  · exact ⟨rfl, rfl, rfl⟩
  · exact ⟨rfl, rfl, rfl⟩

/-- C10: `isValidAudioFile` accepts a file iff its name, lowercased, ends
with one of `.mp3`, `.wav`, `.flac`, `.m4a`, `.ogg`; in particular the
mixed-case name `SONG.MP3` is accepted. -/
theorem isValidAudioFile_case_insensitive (f : JsFile) :
    (isValidAudioFile f = true ↔
      (jsEndsWith (jsToLower f.name) ['.', 'm', 'p', '3'] = true ∨
       jsEndsWith (jsToLower f.name) ['.', 'w', 'a', 'v'] = true ∨
       jsEndsWith (jsToLower f.name) ['.', 'f', 'l', 'a', 'c'] = true ∨
       jsEndsWith (jsToLower f.name) ['.', 'm', '4', 'a'] = true ∨
       jsEndsWith (jsToLower f.name) ['.', 'o', 'g', 'g'] = true)) ∧
    isValidAudioFile { name := ['S', 'O', 'N', 'G', '.', 'M', 'P', '3'], size := 9 } = true := by
  constructor
  · simp [isValidAudioFile, validTypes]
  · decide

/-- C4 (amended): a thrown transport/parse failure while polling sets the
terminal error visual on the owning queue item and stops polling, but emits
no notification; a non-success HTTP response runs no handler at all — it
silently stops polling and leaves the item's previous visual (the
processing spinner) in place. -/
theorem pollFailure_behaviour (st : TrackerState) :
    pollStep st .fetchError = { st with visual := .errorMark, pendingPoll := none } ∧
    pollStep st .httpNotOk = { st with pendingPoll := none } :=
  ⟨rfl, rfl⟩

/-- C4 counterexample: from a freshly started tracker, a non-ok HTTP status
response leaves the queue item still showing the processing spinner — not
the terminal errored state the claim requires — and emits no user-visible
message. -/
theorem pollHttpNotOk_indeterminate :
    (pollStep (initTracker "b.mp3") .httpNotOk).visual = .processingSpinner ∧
    (pollStep (initTracker "b.mp3") .httpNotOk).visual ≠ .errorMark ∧
    (pollStep (initTracker "b.mp3") .httpNotOk).toasts = [] ∧
    (pollStep (initTracker "b.mp3") .httpNotOk).pendingPoll = none := by
  decide

theorem runPolls_of_none {st : TrackerState} (h : st.pendingPoll = none)
    (rs : List PollResponse) : runPolls st rs = st := by
  cases rs with
  | nil => rfl
  | cons r rs => rw [runPolls, h]; rfl

theorem runPolls_append (st : TrackerState) (l1 l2 : List PollResponse) :
    runPolls st (l1 ++ l2) = runPolls (runPolls st l1) l2 := by
  induction l1 generalizing st with
  | nil => rfl
  | cons r rs ih =>
      rw [List.cons_append, runPolls, runPolls]
      by_cases hp : st.pendingPoll.isSome = true
      · rw [if_pos hp, if_pos hp, ih]
      · rw [if_neg hp, if_neg hp]
        have hn : st.pendingPoll = none := by
          cases h : st.pendingPoll
          · rfl
          · rw [h] at hp; simp at hp
        exact (runPolls_of_none hn l2).symm

theorem pollStep_running {st : TrackerState} (h : st.attempts < maxAttempts) :
    pollStep st (.ok "running")
      = { st with attempts := st.attempts + 1, pendingPoll := some 1000 } := by
  rw [pollStep, if_neg (by decide), if_neg (by decide), if_pos ⟨rfl, h⟩]

theorem pollStep_running_max {st : TrackerState} (h : ¬ st.attempts < maxAttempts) :
    pollStep st (.ok "running")
      = { st with visual := .timeoutClock, pendingPoll := none } := by
  rw [pollStep, if_neg (by decide), if_neg (by decide), if_neg]
  rintro ⟨-, hlt⟩
  exact h hlt

theorem pollStep_processing (st : TrackerState) :
    pollStep st (.ok "processing")
      = { st with visual := .timeoutClock, pendingPoll := none } := by
  rw [pollStep, if_neg (by decide), if_neg (by decide), if_neg]
  rintro ⟨hr, -⟩
  exact absurd hr (by decide)

theorem runPolls_running (k : Nat) (st : TrackerState)
    (hp : st.pendingPoll.isSome = true) (hk : st.attempts + k ≤ maxAttempts) :
    runPolls st (List.replicate k (.ok "running"))
      = { st with attempts := st.attempts + k,
                  pendingPoll := if k = 0 then st.pendingPoll else some 1000 } := by
  induction k generalizing st with
  | zero => simp [runPolls]
  | succ k ih =>
      rw [List.replicate_succ, runPolls, if_pos hp,
          pollStep_running (show st.attempts < maxAttempts by omega)]
      rw [ih { st with attempts := st.attempts + 1, pendingPoll := some 1000 } rfl
            (show ({ st with attempts := st.attempts + 1,
                             pendingPoll := some 1000 } : TrackerState).attempts + k
                ≤ maxAttempts by dsimp only; omega)]
      dsimp only
      have h1 : st.attempts + 1 + k = st.attempts + (k + 1) := by omega
      rw [h1, if_neg (Nat.succ_ne_zero k)]
      split
      · rfl
      · rfl

theorem runPolls_one (st : TrackerState) (r : PollResponse) :
    runPolls st [r] = if st.pendingPoll.isSome then pollStep st r else st := by
  rw [runPolls]
  split
  · rfl
  · rfl

/-- C3 (amended): a poll response with status `running` re-polls after 1 s
with the attempt count incremented, provided fewer than 30 attempts are
used; a response with status `processing` is not recognised and makes the
tracker terminal (timeout visual, no further poll) immediately; after 30
consecutive `running` responses the tracker is still polling — it reaches
the timeout state, and polls no further, on the 31st. -/
theorem pollRunning_budget (st : TrackerState) (f : String)
    (h : st.attempts < maxAttempts) :
    pollStep st (.ok "running")
      = { st with attempts := st.attempts + 1, pendingPoll := some 1000 } ∧
    pollStep st (.ok "processing")
      = { st with visual := .timeoutClock, pendingPoll := none } ∧
    (runPolls (initTracker f) (List.replicate 30 (.ok "running"))).pendingPoll
      = some 1000 ∧
    runPolls (initTracker f) (List.replicate 31 (.ok "running"))
      = { initTracker f with attempts := 30, visual := .timeoutClock,
                             pendingPoll := none } := by
  refine ⟨pollStep_running h, pollStep_processing st, ?_, ?_⟩
  · rw [runPolls_running 30 (initTracker f) rfl
          (by dsimp only [initTracker, maxAttempts]; omega)]
    rfl
  · rw [show (31 : Nat) = 30 + 1 from rfl, List.replicate_add, runPolls_append,
        runPolls_running 30 (initTracker f) rfl
          (by dsimp only [initTracker, maxAttempts]; omega),
        List.replicate_one, runPolls_one, if_pos (by rfl),
        pollStep_running_max (by dsimp only [initTracker, maxAttempts]; omega)]
    rfl

/-- C3 counterexample: a `processing` response with the attempt count at 0
(below the maximum of 30) does not increment the attempt count or schedule a
re-poll — it makes the tracker terminal with the timeout visual; and after
30 consecutive `running` responses the tracker has not timed out: its item
still shows the processing spinner and another poll is scheduled. -/
theorem pollProcessing_not_repoll :
    (pollStep (initTracker "c.mp3") (.ok "processing")).attempts = 0 ∧
    (pollStep (initTracker "c.mp3") (.ok "processing")).pendingPoll = none ∧
    (pollStep (initTracker "c.mp3") (.ok "processing")).visual = .timeoutClock ∧
    (runPolls (initTracker "c.mp3") (List.replicate 30 (.ok "running"))).visual
      = .processingSpinner ∧
    (runPolls (initTracker "c.mp3") (List.replicate 30 (.ok "running"))).pendingPoll
      = some 1000 := by
  decide

theorem pollRunning_budget_witness :
    pollStep (initTracker "a.mp3") (.ok "running")
      = { initTracker "a.mp3" with
            attempts := (initTracker "a.mp3").attempts + 1,
            pendingPoll := some 1000 } ∧
    (runPolls (initTracker "a.mp3") (List.replicate 30 (.ok "running"))).pendingPoll
      = some 1000 := by
  have h := pollRunning_budget (initTracker "a.mp3") "a.mp3" (by decide)
  exact ⟨h.1, h.2.2.1⟩

/-- C6: a `completed` poll response makes the tracker terminal: the item
shows the completed check, exactly one success notification is emitted, and
exactly one queue auto-clear is scheduled with the 2000 ms grace delay; no
further poll runs, so the transition happens exactly once.  A `failed`
response is terminal with one error notification and schedules no
auto-clear. -/
theorem pollTerminal_completed_failed (st : TrackerState) (rs : List PollResponse) :
    pollStep st (.ok "completed")
      = { st with visual := .completedCheck,
                  toasts := st.toasts ++ ["Analysis completed for " ++ st.fileName],
                  autoClears := st.autoClears ++ [2000],
                  pendingPoll := none } ∧
    runPolls (pollStep st (.ok "completed")) rs = pollStep st (.ok "completed") ∧
    pollStep st (.ok "failed")
      = { st with visual := .failedMark,
                  toasts := st.toasts ++ ["Analysis failed for " ++ st.fileName],
                  pendingPoll := none } ∧
    runPolls (pollStep st (.ok "failed")) rs = pollStep st (.ok "failed") := by
  have hc : pollStep st (.ok "completed")
      = { st with visual := .completedCheck,
                  toasts := st.toasts ++ ["Analysis completed for " ++ st.fileName],
                  autoClears := st.autoClears ++ [2000],
                  pendingPoll := none } := by
    rw [pollStep, if_pos rfl]
  have hf : pollStep st (.ok "failed")
      = { st with visual := .failedMark,
                  toasts := st.toasts ++ ["Analysis failed for " ++ st.fileName],
                  pendingPoll := none } := by
    rw [pollStep, if_neg (by decide), if_pos rfl]
  refine ⟨hc, ?_, hf, ?_⟩
  · rw [hc]; exact runPolls_of_none rfl rs
  · rw [hf]; exact runPolls_of_none rfl rs

/-- C2: `performSearch` always resets `currentPage` to 1; an empty or
whitespace-only term restores `filteredAnalyses` to the full set, and a
non-empty term keeps exactly the records whose filename contains the term
case-insensitively or whose id, written in decimal, contains the term. -/
theorem performSearch_filter (term : List Char) (st : ListState) :
    (performSearch term st).currentPage = 1 ∧
    (performSearch term st).filteredAnalyses =
      (if jsTrim term = [] then st.allAnalyses
       else st.allAnalyses.filter fun a =>
         jsIncludes (jsToLower (a.filename.getD [])) (jsToLower term)
         || jsIncludes (natToChars a.id) term) := by
  refine ⟨rfl, ?_⟩
  show (if jsTrim term = [] then st.allAnalyses
        else st.allAnalyses.filter (searchMatch term)) = _
  split
  · rfl
  · apply List.filter_congr
    intro a _
    show (jsIncludes (jsToLower (a.filename.getD [])) (jsToLower term)
        || jsIncludes (natToChars a.id) (jsToLower term)) = _
    rw [jsIncludes_natToChars_toLower]

theorem totalPages_nil {st : ListState} (h : st.filteredAnalyses = []) :
    totalPages st = 0 := by
  rw [totalPages, h]
  rfl

theorem changePage_nil {st : ListState} (h : st.filteredAnalyses = [])
    (delta : Int) : changePage delta st = (st, false) := by
  unfold changePage
  rw [if_neg]
  rintro ⟨h1, h2⟩
  rw [totalPages_nil h] at h2
  omega

/-- C5: `changePage(delta)` moves to `currentPage + delta` exactly when that
target lies in `[1, totalPages]`, in which case the new page is within
those bounds and the window is re-rendered; otherwise the state is
unchanged and nothing is re-rendered. -/
theorem changePage_bounds (st : ListState) (delta : Int) :
    ((1 ≤ (st.currentPage : Int) + delta ∧
        (st.currentPage : Int) + delta ≤ (totalPages st : Int)) →
      (changePage delta st).1.currentPage = ((st.currentPage : Int) + delta).toNat ∧
      1 ≤ (changePage delta st).1.currentPage ∧
      (changePage delta st).1.currentPage ≤ totalPages st ∧
      (changePage delta st).2 = true) ∧
    (¬ (1 ≤ (st.currentPage : Int) + delta ∧
          (st.currentPage : Int) + delta ≤ (totalPages st : Int)) →
      changePage delta st = (st, false)) := by
  unfold changePage
  dsimp only
  constructor
  · intro h
    rw [if_pos h]
    refine ⟨rfl, ?_, ?_, rfl⟩ <;> dsimp only <;> omega
  · intro h
    rw [if_neg h]

/-- A 12-record list state in paginated mode on page 2 (totalPages = 2),
used to instantiate the pagination theorems. -/
def pageW : ListState :=
  { allAnalyses := List.replicate 12 { id := 1, filename := some ['a'] },
    filteredAnalyses := List.replicate 12 { id := 1, filename := some ['a'] },
    currentPage := 2, isShowingAll := true }

theorem changePage_bounds_witness :
    (changePage (-1) pageW).1.currentPage = 1 ∧
    (changePage (-1) pageW).2 = true ∧
    changePage 1 pageW = (pageW, false) := by
  have h1 := (changePage_bounds pageW (-1)).1 (by decide)
  have h2 := (changePage_bounds pageW 1).2 (by decide)
  exact ⟨h1.1.trans (by decide), h1.2.2.2, h2⟩

/-- C9: in every reachable list-view state, `currentPage ≥ 1`; moreover
whenever `filteredAnalyses` is empty, `currentPage` is exactly 1 (the value
every search and hydrate resets it to), `totalPages` computes to 0, and
every `changePage(delta)` is a no-op that re-renders nothing. -/
theorem reachable_page_invariant (st : ListState) (h : ReachableList st) :
    1 ≤ st.currentPage ∧
    (st.filteredAnalyses = [] →
      st.currentPage = 1 ∧ totalPages st = 0 ∧
      ∀ delta : Int, changePage delta st = (st, false)) := by
  have main : 1 ≤ st.currentPage ∧ (st.filteredAnalyses = [] → st.currentPage = 1) := by
    induction h with
    | init => exact ⟨le_refl 1, fun _ => rfl⟩
    | step op hst ih =>
        cases op with
        | hydrate records => exact ⟨le_refl 1, fun _ => rfl⟩
        | search term => exact ⟨le_refl 1, fun _ => rfl⟩
        | page delta =>
            dsimp only [applyListOp]
            unfold changePage
            dsimp only
            split
            · next hcond =>
                dsimp only
                refine ⟨by omega, fun hf => ?_⟩
                exfalso
                rw [totalPages_nil hf] at hcond
                omega
            · exact ih
        | showAll => exact ⟨le_refl 1, fun _ => rfl⟩
        | showRecent => exact ⟨le_refl 1, fun _ => rfl⟩
  exact ⟨main.1, fun hf =>
    ⟨main.2 hf, totalPages_nil hf, fun delta => changePage_nil hf delta⟩⟩

theorem reachable_page_invariant_witness :
    1 ≤ initialListState.currentPage ∧
    initialListState.currentPage = 1 ∧
    totalPages initialListState = 0 ∧
    changePage (-3) initialListState = (initialListState, false) := by
  have h := reachable_page_invariant initialListState ReachableList.init
  exact ⟨h.1, (h.2 rfl).1, (h.2 rfl).2.1, (h.2 rfl).2.2 (-3)⟩

/-- C1: after `playAudio A` followed by `playAudio B` with `A ≠ B`, exactly
one session is active and it is B's: `currentAudio` holds only B's media,
`currentAnalysisId` is B, no play button other than B's can show the
playing indicator, and in the second call's action trace A's media is
paused and released before B's media is created (loading begins). -/
theorem playAudio_single_session (A B : Nat) (st : AudioState) (_hAB : A ≠ B) :
    (playAudio B (playAudio A st).1).1.currentAudio
      = some { analysisId := B, paused := false, duration := none, currentTime := 0 } ∧
    (playAudio B (playAudio A st).1).1.currentAnalysisId = some B ∧
    (playAudio B (playAudio A st).1).2
      = [.mediaPaused A, .mediaReleased A, .buttonsUpdated B, .mediaCreated B,
         .playerShown B, .playCalled B] ∧
    ∀ b ∈ (playAudio B (playAudio A st).1).1.buttons,
      b.playing = true → b.analysisId = B := by
  have hbtn : ∀ (bs : List PlayButton) (b : PlayButton),
      b ∈ updatePlayButtons B "playing" bs → b.playing = true → b.analysisId = B := by
    intro bs b hb hp
    unfold updatePlayButtons at hb
    rcases List.mem_map.mp hb with ⟨x, hx, rfl⟩
    by_cases hxB : x.analysisId = B
    · simp [hxB]
    · simp [hxB] at hp
  obtain ⟨cur, cid, btns⟩ := st
  cases cur with
  | none => exact ⟨rfl, rfl, rfl, fun b hb hp => hbtn _ b hb hp⟩
  | some a => exact ⟨rfl, rfl, rfl, fun b hb hp => hbtn _ b hb hp⟩

/-- A state with no active audio and play buttons for analyses 1 and 2. -/
def audioW : AudioState :=
  { currentAudio := none, currentAnalysisId := none,
    buttons := [{ analysisId := 1, playing := false },
                { analysisId := 2, playing := false }] }

theorem playAudio_single_session_witness :
    (playAudio 2 (playAudio 1 audioW).1).1.currentAnalysisId = some 2 ∧
    (playAudio 2 (playAudio 1 audioW).1).2
      = [.mediaPaused 1, .mediaReleased 1, .buttonsUpdated 2, .mediaCreated 2,
         .playerShown 2, .playCalled 2] := by
  have h := playAudio_single_session 1 2 audioW (by decide)
  exact ⟨h.2.1, h.2.2.1⟩

/-- A state playing analysis 7 whose media has a known 10-second duration. -/
def audioSeekW : AudioState :=
  { currentAudio := some { analysisId := 7, paused := false,
                           duration := some 10, currentTime := 0 },
    currentAnalysisId := some 7, buttons := [] }

/-- C8 counterexample: with the duration known to be 10, a seek request of
150 % is not clamped — the resulting position is 15, outside
`[0, durationSeconds]`. -/
theorem seekAudio_no_clamp :
    (seekAudio 150 audioSeekW).currentAudio
      = some { analysisId := 7, paused := false, duration := some 10,
               currentTime := 15 } ∧
    ¬ ((15 : ℚ) ≤ 10) := by
  constructor
  · show _ = _
    norm_num [seekAudio, audioSeekW]
  · norm_num

/-- C8 (amended): when a session is active with a known non-zero duration,
`seekAudio` sets the position to `(percentage / 100) · duration` with no
clamping — the result lies within `[0, duration]` exactly for inputs in
`[0, 100]`; when no audio is current, or the duration is unknown, the seek
is a no-op. -/
theorem seekAudio_behaviour (st : AudioState) (a : AudioElem) (d p : ℚ)
    (hc : st.currentAudio = some a) (hd : a.duration = some d) (hdz : d ≠ 0) :
    (seekAudio p st).currentAudio = some { a with currentTime := p / 100 * d } ∧
    (0 ≤ p → p ≤ 100 → 0 < d → 0 ≤ p / 100 * d ∧ p / 100 * d ≤ d) ∧
    (∀ st2 : AudioState, st2.currentAudio = none → seekAudio p st2 = st2) ∧
    (∀ (st2 : AudioState) (a2 : AudioElem), st2.currentAudio = some a2 →
      a2.duration = none → seekAudio p st2 = st2) := by
  refine ⟨?_, ?_, ?_, ?_⟩
  · obtain ⟨cur, cid, btns⟩ := st
    change cur = some a at hc
    subst hc
    obtain ⟨aid, ap, adur, act⟩ := a
    change adur = some d at hd
    subst hd
    simp only [seekAudio]
    rw [if_neg hdz]
  · intro hp0 hp100 hdpos
    rw [show p / 100 * d = p * d / 100 from by ring]
    constructor
    · exact div_nonneg (mul_nonneg hp0 hdpos.le) (by norm_num)
    · rw [div_le_iff₀ (by norm_num : (0:ℚ) < 100)]
      nlinarith [mul_le_mul_of_nonneg_right hp100 hdpos.le]
  · intro st2 h2
    obtain ⟨cur2, cid2, btns2⟩ := st2
    change cur2 = none at h2
    subst h2
    rfl
  · intro st2 a2 h2 hd2
    obtain ⟨cur2, cid2, btns2⟩ := st2
    change cur2 = some a2 at h2
    subst h2
    obtain ⟨aid2, ap2, adur2, act2⟩ := a2
    change adur2 = none at hd2
    subst hd2
    rfl

theorem seekAudio_behaviour_witness :
    (seekAudio 50 audioSeekW).currentAudio
      = some { analysisId := 7, paused := false, duration := some 10,
               currentTime := 50 / 100 * 10 } ∧
    (0 : ℚ) ≤ 50 / 100 * 10 ∧ (50 : ℚ) / 100 * 10 ≤ 10 := by
  have h := seekAudio_behaviour audioSeekW
      { analysisId := 7, paused := false, duration := some 10, currentTime := 0 }
      10 50 rfl rfl (by norm_num)
  have hb := h.2.1 (by norm_num) (by norm_num) (by norm_num)
  exact ⟨h.1, hb.1, hb.2⟩

end MusicPolice
